import Mathlib

/-!
Verification development for a two-tier job-notification PDF parser
(`app/services/pdf_parser.py` and `app/schemas/job.py`).

The PDF-to-text step (`extract_all_text`, backed by the external PyMuPDF
library) is outside the modelled core: every definition below starts from
the text it returns, exactly as the design document scopes the pipeline.
Machine strings are modelled as `List Char`; the regex engine implements
the semantics of Python `re.search` restricted to the constructs that
actually occur in the pattern table of `parse_pdf_with_regex` (every
repetition there is over a single-character class, so the backtracking
match relation is a structurally recursive enumeration of outcomes in
Python backtracking preference order).
-/

namespace PdfJobParserModel

/-- Python whitespace (`\s`, `str.strip`), restricted to the ASCII set. -/
def isSpace (c : Char) : Bool :=
  c = ' ' || c = '\t' || c = '\n' || c = '\r' || c = '\x0b' || c = '\x0c'

/-- Case-insensitive character comparison, as used by `re.IGNORECASE`. -/
def lowerEq (a b : Char) : Bool := a.toLower = b.toLower

/-! ### Text cleaning

`parse_pdf_with_regex` cleans the raw text with
`re.sub(r' +', ' ', ...)`, then `re.sub(r'\s*\n\s*', '\n', ...)`,
then `.strip()`. The second substitution rewrites every maximal
whitespace run that contains a newline to a single newline (the greedy
leading `\s*` backtracks to just before the last newline of the run and
the trailing `\s*` swallows the rest, so the whole run is consumed). -/

/-- `re.sub(r' +', ' ', s)`: collapse runs of space characters. The flag
records whether the previous character emitted was a space. -/
def squeezeGo : Bool → List Char → List Char
  | _, [] => []
  | prevSp, c :: t =>
    if c = ' ' then
      if prevSp then squeezeGo true t else ' ' :: squeezeGo true t
    else c :: squeezeGo false t

def squeezeSpaces (s : List Char) : List Char := squeezeGo false s

/-- Emit one maximal whitespace run: a run containing a newline becomes a
single newline, any other run is kept as is. -/
def emitRun (run : List Char) : List Char :=
  if '\n' ∈ run then ['\n'] else run

/-- `re.sub(r'\s*\n\s*', '\n', s)` at the level of whitespace runs.
`buf` accumulates the current whitespace run in reverse. -/
def collapseNlGo : List Char → List Char → List Char
  | buf, [] => emitRun buf.reverse
  | buf, c :: t =>
    if isSpace c then collapseNlGo (c :: buf) t
    else emitRun buf.reverse ++ c :: collapseNlGo [] t

def collapseNl (s : List Char) : List Char := collapseNlGo [] s

/-- Python `str.strip()`. -/
def pStrip (s : List Char) : List Char :=
  ((s.dropWhile isSpace).reverse.dropWhile isSpace).reverse

/-- The basic text cleaning performed by `parse_pdf_with_regex`
(lines 119-121 of the source). -/
def cleanText (s : List Char) : List Char := pStrip (collapseNl (squeezeSpaces s))

/-- `re.sub(r'\s+', ' ', g)`: collapse every whitespace run (of any
whitespace characters) to one space; used on matched groups. -/
def collapseWsGo : Bool → List Char → List Char
  | _, [] => []
  | prev, c :: t =>
    if isSpace c then
      if prev then collapseWsGo true t else ' ' :: collapseWsGo true t
    else c :: collapseWsGo false t

/-- The group clean-up of `extract_field` (line 39):
`re.sub(r'\s+', ' ', match.group(i)).strip()`. -/
def cleanMatch (g : List Char) : List Char := pStrip (collapseWsGo false g)

/-! ### Regex engine

A small abstract syntax covering exactly the constructs used in the
pattern table. All matching is under `re.IGNORECASE | re.DOTALL`
(`extract_field` always passes both flags; the inline `(?i)` / `(?is)`
groups in the table are therefore redundant and are not represented). -/

/-- Single-character classes occurring in the patterns. Under
`re.IGNORECASE` the class `[A-Z]` also matches lowercase letters. -/
inductive CClass where
  | anyc      -- '.', which under DOTALL matches every character
  | space     -- \s
  | digit     -- \d
  | notNl     -- [^\n]
  | notSpace  -- [^\s]
  | colonDash -- [:\-]
  | upperAZ   -- [A-Z] (case-insensitive, so also a-z)
deriving DecidableEq

def cmem : CClass → Char → Bool
  | .anyc, _ => true
  | .space, c => isSpace c
  | .digit, c => '0' ≤ c && c ≤ '9'
  | .notNl, c => c ≠ '\n'
  | .notSpace, c => !(isSpace c)
  | .colonDash, c => c = ':' || c = '-'
  | .upperAZ, c => ('A' ≤ c && c ≤ 'Z') || ('a' ≤ c && c ≤ 'z')

/-- Regex abstract syntax. `rep c lzy one` is `c*`/`c+` (`one = true`
requires at least one character) with `lzy` selecting lazy repetition.
`look` is the zero-width lookahead `(?=...)`; `eol` is `$` without
`re.MULTILINE`. -/
inductive Re where
  | eps
  | lit (l : List Char)
  | cls (c : CClass)
  | seq (a b : Re)
  | alt (a b : Re)
  | rep (c : CClass) (lzy : Bool) (one : Bool)
  | opt (r : Re)
  | group (r : Re)
  | look (r : Re)
  | eol
deriving DecidableEq

def rlit (s : String) : Re := .lit s.data

/-- Sequence a list of regexes. -/
def rseq : List Re → Re
  | [] => .eps
  | [r] => r
  | r :: rest => .seq r (rseq rest)

/-- Case-insensitive literal test at the head of the subject. -/
def matchLit : List Char → List Char → Bool
  | [], _ => true
  | _ :: _, [] => false
  | a :: as, b :: bs => lowerEq a b && matchLit as bs

/-- First-defined capture, for sequencing two partial results
(each pattern in the table has exactly one capturing group, so at most
one side is ever set). -/
def firstOpt (a b : Option (List Char)) : Option (List Char) :=
  match a with
  | some x => some x
  | none => b

/-- Length of the maximal run of characters of class `c` at the head. -/
def runLen (c : CClass) (s : List Char) : Nat := (s.takeWhile (cmem c)).length

/-- Candidate repetition counts in backtracking preference order:
greedy tries the longest first, lazy the shortest first; `one = true`
omits the empty repetition. -/
def repCounts (lzy : Bool) (one : Bool) (maxN : Nat) : List Nat :=
  let base := if one then (List.range maxN).map (· + 1) else List.range (maxN + 1)
  if lzy then base else base.reverse

/-- One backtracking outcome: the group-1 capture (if the capturing group
participated) and the unconsumed suffix of the subject. -/
abbrev MRes := Option (List Char) × List Char

/-- All ways `r` can match a prefix of `s`, in Python backtracking
preference order (first element = the match `re.search` would commit to
at this position). -/
def matchesAt (r : Re) (s : List Char) : List MRes :=
  match r with
  | .eps => [(none, s)]
  | .lit l => if matchLit l s then [(none, s.drop l.length)] else []
  | .cls c =>
    match s with
    | [] => []
    | ch :: t => if cmem c ch then [(none, t)] else []
  | .seq a b =>
    (matchesAt a s).flatMap fun ra =>
      (matchesAt b ra.2).map fun rb => (firstOpt ra.1 rb.1, rb.2)
  | .alt a b => matchesAt a s ++ matchesAt b s
  | .rep c lzy one => (repCounts lzy one (runLen c s)).map fun n => (none, s.drop n)
  | .opt r => matchesAt r s ++ [(none, s)]
  | .group r =>
    (matchesAt r s).map fun rb => (some (s.take (s.length - rb.2.length)), rb.2)
  | .look r => if (matchesAt r s).isEmpty then [] else [(none, s)]
  | .eol => if s = [] ∨ s = ['\n'] then [(none, s)] else []

/-- `re.search`: try each start position left to right; at the first
position admitting a match, commit to the preferred outcome and return
its group-1 capture (`some none` models a match whose group did not
participate, in which case `match.group(1)` is Python `None`). -/
def reSearch (r : Re) : List Char → Option (Option (List Char))
  | [] =>
    match matchesAt r [] with
    | m :: _ => some m.1
    | [] => none
  | c :: t =>
    match matchesAt r (c :: t) with
    | m :: _ => some m.1
    | [] => reSearch r t

/-! ### The pattern table of `parse_pdf_with_regex` (source lines 124-132)

Each Python pattern is transcribed construct by construct. The unescaped
dot in `5.0` / `6.0` is the ANY-character class (DOTALL); the escaped
`\.` in `CEN NO\.` and `\d+\.0` is a literal dot. Every pattern contains
exactly one capturing group. -/

/-- `recruitment for the post of\s*(.+?)(?:\n|$)` -/
def pat_job_title_1 : Re :=
  rseq [rlit "recruitment for the post of", .rep .space false false,
        .group (.rep .anyc true true), .alt (rlit "\n") .eol]

/-- `RECRUITMENT OF (.+?)(?:\n|$)` -/
def pat_job_title_2 : Re :=
  rseq [rlit "RECRUITMENT OF ", .group (.rep .anyc true true), .alt (rlit "\n") .eol]

/-- `CEN NO\. \d+/\d+ \((.+?)\)` -/
def pat_job_title_3 : Re :=
  rseq [rlit "CEN NO. ", .rep .digit false true, rlit "/", .rep .digit false true,
        rlit " (", .group (.rep .anyc true true), rlit ")"]

/-- `(?i)(government of india|ministry of .+?|department of .+?|railway recruitment board)` -/
def pat_department : Re :=
  .group (.alt (rlit "government of india")
    (.alt (.seq (rlit "ministry of ") (.rep .anyc true true))
      (.alt (.seq (rlit "department of ") (.rep .anyc true true))
        (rlit "railway recruitment board"))))

/-- `total vacancies\s*[:\-]?\s*(\d+)` -/
def pat_vacancies_1 : Re :=
  rseq [rlit "total vacancies", .rep .space false false, .opt (.cls .colonDash),
        .rep .space false false, .group (.rep .digit false true)]

/-- `grand total\s*[:\-]?\s*(\d+)` -/
def pat_vacancies_2 : Re :=
  rseq [rlit "grand total", .rep .space false false, .opt (.cls .colonDash),
        .rep .space false false, .group (.rep .digit false true)]

/-- The lookahead `(?=\n\d+\.0|\n\n[A-Z])` shared by the eligibility and
salary patterns. -/
def sectionAhead : Re :=
  .look (.alt (rseq [rlit "\n", .rep .digit false true, rlit ".0"])
              (.seq (rlit "\n\n") (.cls .upperAZ)))

/-- `(?is)(?:5.0\s+AGE LIMIT|6.0\s+EDUCATIONAL QUALIFICATIONS)(.+?)(?=\n\d+\.0|\n\n[A-Z])` -/
def pat_eligibility : Re :=
  rseq [.alt (rseq [rlit "5", .cls .anyc, rlit "0", .rep .space false true, rlit "AGE LIMIT"])
             (rseq [rlit "6", .cls .anyc, rlit "0", .rep .space false true,
                    rlit "EDUCATIONAL QUALIFICATIONS"]),
        .group (.rep .anyc true true), sectionAhead]

/-- `(?is)(?:SCALE OF PAY|PAY LEVEL)(.+?)(?=\n\d+\.0|\n\n[A-Z])` -/
def pat_salary : Re :=
  rseq [.alt (rlit "SCALE OF PAY") (rlit "PAY LEVEL"),
        .group (.rep .anyc true true), sectionAhead]

/-- `closing date.*?submission of.*?application.*?\n?([^\n]+)` -/
def pat_deadline : Re :=
  rseq [rlit "closing date", .rep .anyc true false, rlit "submission of",
        .rep .anyc true false, rlit "application", .rep .anyc true false,
        .opt (rlit "\n"), .group (.rep .notNl false true)]

/-- `apply online through the website\s*([^\s]+)` -/
def pat_url : Re :=
  rseq [rlit "apply online through the website", .rep .space false false,
        .group (.rep .notSpace false true)]

def job_title_patterns : List Re := [pat_job_title_1, pat_job_title_2, pat_job_title_3]
def department_patterns : List Re := [pat_department]
def vacancies_patterns : List Re := [pat_vacancies_1, pat_vacancies_2]
def eligibility_patterns : List Re := [pat_eligibility]
def salary_patterns : List Re := [pat_salary]
def application_deadline_patterns : List Re := [pat_deadline]
def application_url_patterns : List Re := [pat_url]

/-- The `patterns` dict of `parse_pdf_with_regex` (field name paired with
its ordered pattern list). -/
def patternTable : List (String × List Re) :=
  [("job_title", job_title_patterns), ("department", department_patterns),
   ("vacancies", vacancies_patterns), ("eligibility", eligibility_patterns),
   ("salary", salary_patterns), ("application_deadline", application_deadline_patterns),
   ("application_url", application_url_patterns)]

/-! ### `extract_field` and `parse_pdf_with_regex` -/

/-- The cleaned capture as a `String`. -/
def fieldClean (g : List Char) : String := (cleanMatch g).asString

/-- `JobPDFParser.extract_field` (source lines 32-40) at the default
`group_index = 1` (the only index the source uses). A match whose group-1
did not participate makes `match.group(1)` Python `None`, and the
subsequent `re.sub` on `None` raises a `TypeError`; that raising outcome
is the `.error` case. -/
def extract_field (text : List Char) : List Re → Except Unit (Option String)
  | [] => .ok none
  | p :: rest =>
    match reSearch p text with
    | some (some g) => .ok (some (fieldClean g))
    | some none => .error ()
    | none => extract_field text rest

/-- Lines 146-150: `None` becomes the sentinel, any found value is passed
through `str` (the identity on values that are already strings). -/
def finalizeField : Option String → String
  | none => "Not specified"
  | some v => v

/-- `JobPDFParser.parse_pdf_with_regex` (source lines 113-154), starting
from the text produced by the (external) text extractor. The result dict
is an association list in Python dict insertion order; the `.error` case
is an uncaught exception. -/
def parse_pdf_with_regex (rawText : String) : Except Unit (List (String × String)) := do
  let ct := cleanText rawText.data
  let jt ← extract_field ct job_title_patterns
  let dep ← extract_field ct department_patterns
  let vac ← extract_field ct vacancies_patterns
  let eli ← extract_field ct eligibility_patterns
  let sal ← extract_field ct salary_patterns
  let ddl ← extract_field ct application_deadline_patterns
  let url ← extract_field ct application_url_patterns
  return [("job_title", finalizeField jt), ("department", finalizeField dep),
          ("vacancies", finalizeField vac), ("eligibility", finalizeField eli),
          ("salary", finalizeField sal), ("application_deadline", finalizeField ddl),
          ("application_url", finalizeField url), ("raw_text", (ct.take 1000).asString)]

/-! ### `parse_pdf_with_llm` (source lines 42-111)

The HTTP transport, the HTTP response object and `json.loads` are
external; the embedding keeps their observable outcomes. The body of the
`try` block distinguishes: an exception anywhere in the transport /
status check / response decoding / content access / `json.loads`
(`exn`), a well-formed response whose `choices` or message content is
falsy — which makes the code raise a `ValueError`, caught by the same
handler (`noContent`) —, and a successfully decoded JSON object payload
(`payload`). -/

/-- A JSON scalar as decoded by `json.loads` (array/object field values
do not occur in the claims; integers model the JSON numbers used). -/
inductive JValue where
  | null
  | str (s : String)
  | num (n : Int)
  | bool (b : Bool)
deriving DecidableEq

/-- Python `str` on a decoded JSON scalar. -/
def pyStr : JValue → String
  | .null => "None"
  | .str s => s
  | .num n => toString n
  | .bool b => if b then "True" else "False"

/-- Lines 99-102: a non-null value is coerced with `str`, `None` becomes
the sentinel. -/
def sanitizeValue (v : JValue) : String :=
  match v with
  | .null => "Not specified"
  | v => pyStr v

/-- Lines 97-102: the sanitization loop over the decoded payload (a dict,
modelled as an association list in insertion order). -/
def sanitize (jobInfo : List (String × JValue)) : List (String × String) :=
  jobInfo.map fun kv => (kv.1, sanitizeValue kv.2)

/-- Python dict assignment `d[k] = v` on an association list: overwrite
the binding in place when the key exists, append otherwise (keys of a
decoded JSON dict are distinct, so overwriting the first binding is
exact). -/
def dictSet : List (String × String) → String → String → List (String × String)
  | [], k, v => [(k, v)]
  | p :: t, k, v => if p.1 = k then (k, v) :: t else p :: dictSet t k v

/-- The default value baked into `os.getenv("OPENROUTER_API_KEY", ...)`
in `JobPDFParser.__init__` (source line 16). -/
def default_api_key : String :=
  "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"

/-- `os.getenv("OPENROUTER_API_KEY", default_api_key)`: the argument is
the environment variable state (`none` = absent). -/
def getenv (env : Option String) : String := env.getD default_api_key

/-- Observable outcome of the model transport call and response
decoding, as distinguished by the code in the `try` block. -/
inductive ModelOutcome where
  | exn
  | noContent
  | payload (p : List (String × JValue))
deriving DecidableEq

/-- Result of one `parse_pdf_with_llm` call, instrumented with the number
of model transport calls performed and the total backoff wait consumed
(the code contains no sleep call, so any wait it consumes is visible as
`sleep`). -/
structure LlmResult where
  record : List (String × String)
  attempts : Nat
  sleep : Nat
deriving DecidableEq

/-- `JobPDFParser.parse_pdf_with_llm` (source lines 42-111), starting
from the extracted text. The credential check (lines 49-51) precedes the
`try` block; any failure outcome of the model tier lands in the
catch-all `except` (lines 109-111) which returns the regex record for
the same document. -/
def parse_pdf_with_llm (apiKey : String) (outcome : ModelOutcome) (rawText : String) :
    Except Unit LlmResult :=
  if apiKey = "" then
    (parse_pdf_with_regex rawText).map fun r => ⟨r, 0, 0⟩
  else
    match outcome with
    | .payload p =>
      .ok ⟨dictSet (sanitize p) "raw_text" (rawText.data.take 1000).asString, 1, 0⟩
    | _ => (parse_pdf_with_regex rawText).map fun r => ⟨r, 1, 0⟩

/-- Modelled from the spec: the code contains no backoff schedule at
all; this is the example exponential schedule the design document gives
(sections 4.4 and 8, "fixed sequence, e.g. 1, 2, 4, 8, 16 time units"),
used only to compare the claimed retry accounting with the code. -/
def backoff_schedule_spec : List Nat := [1, 2, 4, 8, 16]

/-- The seven schema field names of `JobData`
(`app/schemas/job.py`, lines 5-11), in declaration order. -/
def sevenFields : List String :=
  ["job_title", "department", "vacancies", "eligibility", "salary",
   "application_deadline", "application_url"]

/-! ### Helper lemmas -/

/-- Syntactic test: the capturing group participates in every possible
match of `r` (true for all ten patterns of the table). -/
def alwaysCaptures : Re → Bool
  | .group _ => true
  | .seq a b => alwaysCaptures a || alwaysCaptures b
  | .alt a b => alwaysCaptures a && alwaysCaptures b
  | _ => false

theorem isSome_of_mem_matchesAt {r : Re} (h : alwaysCaptures r = true) :
    ∀ {s : List Char} {m : MRes}, m ∈ matchesAt r s → m.1.isSome := by
  induction r with
  | eps => simp [alwaysCaptures] at h
  | lit l => simp [alwaysCaptures] at h
  | cls c => simp [alwaysCaptures] at h
  | seq a b iha ihb =>
    intro s m hm
    simp only [matchesAt, List.mem_flatMap, List.mem_map] at hm
    obtain ⟨ra, hra, rb, hrb, rfl⟩ := hm
    simp only [alwaysCaptures, Bool.or_eq_true] at h
    rcases h with h | h
    · have hra1 := iha h hra
      cases hx : ra.1 with
      | some x => simp [firstOpt, hx]
      | none => rw [hx] at hra1; simp at hra1
    · have hrb1 := ihb h hrb
      cases hx : ra.1 with
      | some x => simp [firstOpt, hx]
      | none => simpa [firstOpt, hx] using hrb1
  | alt a b iha ihb =>
    intro s m hm
    simp only [alwaysCaptures, Bool.and_eq_true] at h
    simp only [matchesAt, List.mem_append] at hm
    rcases hm with hm | hm
    · exact iha h.1 hm
    · exact ihb h.2 hm
  | rep c lzy one => simp [alwaysCaptures] at h
  | opt r ih => simp [alwaysCaptures] at h
  | group r ih =>
    intro s m hm
    simp only [matchesAt, List.mem_map] at hm
    obtain ⟨rb, hrb, rfl⟩ := hm
    rfl
  | look r ih => simp [alwaysCaptures] at h
  | eol => simp [alwaysCaptures] at h

theorem reSearch_ne_some_none {r : Re} (h : alwaysCaptures r = true) :
    ∀ s : List Char, reSearch r s ≠ some none := by
  intro s
  induction s with
  | nil =>
    cases hm : matchesAt r [] with
    | nil => simp [reSearch, hm]
    | cons m rest =>
      have hs := isSome_of_mem_matchesAt h (s := []) (m := m)
        (by rw [hm]; exact List.mem_cons_self m rest)
      simp only [reSearch, hm]
      intro hc
      rw [Option.some_inj.mp hc] at hs
      simp at hs
  | cons c t ih =>
    cases hm : matchesAt r (c :: t) with
    | nil => simpa [reSearch, hm] using ih
    | cons m rest =>
      have hs := isSome_of_mem_matchesAt h (s := c :: t) (m := m)
        (by rw [hm]; exact List.mem_cons_self m rest)
      simp only [reSearch, hm]
      intro hc
      rw [Option.some_inj.mp hc] at hs
      simp at hs

theorem extract_field_ok (text : List Char) :
    ∀ pats : List Re, (∀ p ∈ pats, alwaysCaptures p = true) →
      ∃ v, extract_field text pats = .ok v := by
  intro pats
  induction pats with
  | nil => exact fun _ => ⟨none, rfl⟩
  | cons p rest ih =>
    intro h
    cases hr : reSearch p text with
    | none =>
      obtain ⟨v, hv⟩ := ih (fun q hq => h q (List.mem_cons_of_mem p hq))
      exact ⟨v, by simp [extract_field, hr, hv]⟩
    | some g =>
      cases g with
      | none => exact absurd hr (reSearch_ne_some_none (h p (List.mem_cons_self p rest)) text)
      | some gg => exact ⟨some (fieldClean gg), by simp [extract_field, hr]⟩

/-- The full shape of the regex record: all seven extractions land in
`.ok` and the record is the literal dict of lines 145-152. -/
theorem parse_regex_shape (text : String) :
    ∃ jt dep vac eli sal ddl url : Option String,
      extract_field (cleanText text.data) job_title_patterns = .ok jt ∧
      extract_field (cleanText text.data) department_patterns = .ok dep ∧
      extract_field (cleanText text.data) vacancies_patterns = .ok vac ∧
      extract_field (cleanText text.data) eligibility_patterns = .ok eli ∧
      extract_field (cleanText text.data) salary_patterns = .ok sal ∧
      extract_field (cleanText text.data) application_deadline_patterns = .ok ddl ∧
      extract_field (cleanText text.data) application_url_patterns = .ok url ∧
      parse_pdf_with_regex text = .ok
        [("job_title", finalizeField jt), ("department", finalizeField dep),
         ("vacancies", finalizeField vac), ("eligibility", finalizeField eli),
         ("salary", finalizeField sal), ("application_deadline", finalizeField ddl),
         ("application_url", finalizeField url),
         ("raw_text", ((cleanText text.data).take 1000).asString)] := by
  obtain ⟨jt, h1⟩ := extract_field_ok (cleanText text.data) job_title_patterns (by decide)
  obtain ⟨dep, h2⟩ := extract_field_ok (cleanText text.data) department_patterns (by decide)
  obtain ⟨vac, h3⟩ := extract_field_ok (cleanText text.data) vacancies_patterns (by decide)
  obtain ⟨eli, h4⟩ := extract_field_ok (cleanText text.data) eligibility_patterns (by decide)
  obtain ⟨sal, h5⟩ := extract_field_ok (cleanText text.data) salary_patterns (by decide)
  obtain ⟨ddl, h6⟩ := extract_field_ok (cleanText text.data) application_deadline_patterns (by decide)
  obtain ⟨url, h7⟩ := extract_field_ok (cleanText text.data) application_url_patterns (by decide)
  refine ⟨jt, dep, vac, eli, sal, ddl, url, h1, h2, h3, h4, h5, h6, h7, ?_⟩
  simp [parse_pdf_with_regex, h1, h2, h3, h4, h5, h6, h7, Except.bind, Bind.bind, pure,
    Except.pure]

/-- `extract_field` on a list of patterns none of which matches. -/
theorem extract_field_all_none (text : List Char) :
    ∀ pats : List Re, (∀ p ∈ pats, reSearch p text = none) →
      extract_field text pats = .ok none := by
  intro pats
  induction pats with
  | nil => exact fun _ => rfl
  | cons p rest ih =>
    intro h
    have hp := h p (List.mem_cons_self p rest)
    simp only [extract_field, hp]
    exact ih fun q hq => h q (List.mem_cons_of_mem p hq)

theorem lookup_dictSet_self (d : List (String × String)) (k v : String) :
    (dictSet d k v).lookup k = some v := by
  induction d with
  | nil => simp [dictSet, List.lookup]
  | cons p t ih =>
    obtain ⟨k1, v1⟩ := p
    by_cases hp : k1 = k
    · subst hp; simp [dictSet, List.lookup]
    · have hb : (k == k1) = false := by simp [Ne.symm hp]
      simp [dictSet, hp, List.lookup, hb, ih]

theorem lookup_dictSet_ne (d : List (String × String)) (k v k' : String) (h : k' ≠ k) :
    (dictSet d k v).lookup k' = d.lookup k' := by
  have hb : (k' == k) = false := by simp [h]
  induction d with
  | nil => simp [dictSet, List.lookup, hb]
  | cons p t ih =>
    obtain ⟨k1, v1⟩ := p
    by_cases hp : k1 = k
    · subst hp; simp [dictSet, List.lookup, hb]
    · by_cases hk : k' = k1
      · subst hk
        have hb1 : (k' == k') = true := by simp
        simp [dictSet, hp, List.lookup, hb1]
      · have hb1 : (k' == k1) = false := by simp [hk]
        simp [dictSet, hp, List.lookup, hb1, ih]

theorem lookup_sanitize (p : List (String × JValue)) (k : String) :
    (sanitize p).lookup k = (p.lookup k).map sanitizeValue := by
  induction p with
  | nil => rfl
  | cons kv t ih =>
    obtain ⟨k1, v1⟩ := kv
    by_cases hk : k = k1
    · subst hk; simp [sanitize, List.lookup]
    · have hb : (k == k1) = false := by simp [hk]
      simp [sanitize, List.lookup, hb, ih]
      simpa [sanitize] using ih

theorem exists_lookup_of_mem {α : Type} {l : List (String × α)} {k : String} {v : α}
    (h : (k, v) ∈ l) : ∃ w, l.lookup k = some w := by
  induction l with
  | nil => cases h
  | cons kv t ih =>
    obtain ⟨k1, v1⟩ := kv
    by_cases hk : k = k1
    · subst hk; exact ⟨v1, by simp [List.lookup]⟩
    · rcases List.mem_cons.mp h with hh | hh
      · exact absurd (congrArg Prod.fst hh) hk
      · obtain ⟨w, hw⟩ := ih hh
        have hb : (k == k1) = false := by simp [hk]
        exact ⟨w, by simp [List.lookup, hb, hw]⟩

theorem squeezeGo_all_space {l : List Char} (h : ∀ c ∈ l, isSpace c = true) :
    ∀ b, ∀ c ∈ squeezeGo b l, isSpace c = true := by
  induction l with
  | nil => intro b c hc; cases hc
  | cons a t ih =>
    intro b c hc
    have ha := h a (List.mem_cons_self a t)
    have ht : ∀ c ∈ t, isSpace c = true := fun c hc => h c (List.mem_cons_of_mem a hc)
    by_cases hsp : a = ' '
    · subst hsp
      cases b with
      | true => simpa [squeezeGo] using ih ht true c hc
      | false =>
        simp only [squeezeGo, if_pos rfl, if_neg] at hc
        rcases List.mem_cons.mp hc with rfl | hc
        · rfl
        · exact ih ht true c hc
    · simp only [squeezeGo, if_neg hsp] at hc
      rcases List.mem_cons.mp hc with rfl | hc
      · exact ha
      · exact ih ht false c hc

theorem emitRun_all_space {run : List Char} (h : ∀ c ∈ run, isSpace c = true) :
    ∀ c ∈ emitRun run, isSpace c = true := by
  intro c hc
  unfold emitRun at hc
  by_cases hn : '\n' ∈ run
  · rw [if_pos hn] at hc
    rcases List.mem_cons.mp hc with rfl | hc
    · rfl
    · cases hc
  · rw [if_neg hn] at hc
    exact h c hc

theorem collapseNlGo_all_space {l : List Char} (h : ∀ c ∈ l, isSpace c = true) :
    ∀ buf, (∀ c ∈ buf, isSpace c = true) →
      ∀ c ∈ collapseNlGo buf l, isSpace c = true := by
  induction l with
  | nil =>
    intro buf hbuf c hc
    simp only [collapseNlGo] at hc
    exact emitRun_all_space (fun c hc => hbuf c (List.mem_reverse.mp hc)) c hc
  | cons a t ih =>
    intro buf hbuf c hc
    have ha := h a (List.mem_cons_self a t)
    have ht : ∀ c ∈ t, isSpace c = true := fun c hc => h c (List.mem_cons_of_mem a hc)
    simp only [collapseNlGo, ha, if_pos] at hc
    exact ih ht (a :: buf) (by
      intro c hc
      rcases List.mem_cons.mp hc with rfl | hc
      · exact ha
      · exact hbuf c hc) c hc

theorem pStrip_all_space {l : List Char} (h : ∀ c ∈ l, isSpace c = true) :
    pStrip l = [] := by
  unfold pStrip
  rw [List.dropWhile_eq_nil_iff.mpr h]
  simp

/-- Whitespace-only input cleans to the empty text. -/
theorem cleanText_all_space {l : List Char} (h : ∀ c ∈ l, isSpace c = true) :
    cleanText l = [] := by
  unfold cleanText collapseNl squeezeSpaces
  exact pStrip_all_space
    (collapseNlGo_all_space (squeezeGo_all_space h false) [] (by intro c hc; cases hc))

/-! ### Claim theorems -/

/-- C6: for every input text obtained from a successful text extraction,
the regex fallback `parse_pdf_with_regex` returns a record without
raising any exception — it always lands in `.ok`, for all inputs
including empty and whitespace-only text. -/
theorem C6_regex_never_raises (text : String) :
    ∃ r, parse_pdf_with_regex text = .ok r := by
  obtain ⟨jt, dep, vac, eli, sal, ddl, url, _, _, _, _, _, _, _, hp⟩ := parse_regex_shape text
  exact ⟨_, hp⟩

/-- C7: for every input text and every field of the pattern table, the
field of the produced record is computed by `extract_field` from that
field's own pattern list alone (independence of the other fields), and
when no pattern of the list matches the cleaned text the field equals
exactly the sentinel string. -/
theorem C7_sentinel_fields (text : String) (f : String) (pats : List Re)
    (hf : (f, pats) ∈ patternTable) :
    ∃ r v, parse_pdf_with_regex text = .ok r ∧
      extract_field (cleanText text.data) pats = .ok v ∧
      r.lookup f = some (finalizeField v) ∧
      ((∀ p ∈ pats, reSearch p (cleanText text.data) = none) →
        r.lookup f = some "Not specified") := by
  obtain ⟨jt, dep, vac, eli, sal, ddl, url, h1, h2, h3, h4, h5, h6, h7, hp⟩ :=
    parse_regex_shape text
  have hnone : ∀ (w : Option String) (qs : List Re),
      extract_field (cleanText text.data) qs = .ok w →
      (∀ p ∈ qs, reSearch p (cleanText text.data) = none) → w = none := by
    intro w qs hw hall
    have h0 := extract_field_all_none (cleanText text.data) qs hall
    rw [hw] at h0
    injection h0
  simp only [patternTable, List.mem_cons, List.not_mem_nil, or_false, Prod.mk.injEq] at hf
  rcases hf with ⟨rfl, rfl⟩ | ⟨rfl, rfl⟩ | ⟨rfl, rfl⟩ | ⟨rfl, rfl⟩ | ⟨rfl, rfl⟩ |
    ⟨rfl, rfl⟩ | ⟨rfl, rfl⟩
  · refine ⟨_, jt, hp, h1, by simp [List.lookup], fun hall => ?_⟩
    rw [hnone jt _ h1 hall] at hp ⊢
    simp [List.lookup, finalizeField]
  · refine ⟨_, dep, hp, h2, by simp [List.lookup], fun hall => ?_⟩
    rw [hnone dep _ h2 hall] at hp ⊢
    simp [List.lookup, finalizeField]
  · refine ⟨_, vac, hp, h3, by simp [List.lookup], fun hall => ?_⟩
    rw [hnone vac _ h3 hall] at hp ⊢
    simp [List.lookup, finalizeField]
  · refine ⟨_, eli, hp, h4, by simp [List.lookup], fun hall => ?_⟩
    rw [hnone eli _ h4 hall] at hp ⊢
    simp [List.lookup, finalizeField]
  · refine ⟨_, sal, hp, h5, by simp [List.lookup], fun hall => ?_⟩
    rw [hnone sal _ h5 hall] at hp ⊢
    simp [List.lookup, finalizeField]
  · refine ⟨_, ddl, hp, h6, by simp [List.lookup], fun hall => ?_⟩
    rw [hnone ddl _ h6 hall] at hp ⊢
    simp [List.lookup, finalizeField]
  · refine ⟨_, url, hp, h7, by simp [List.lookup], fun hall => ?_⟩
    rw [hnone url _ h7 hall] at hp ⊢
    simp [List.lookup, finalizeField]

/-- C7 witness: on the concrete text "hello" no vacancies pattern
matches and the produced record carries the sentinel. -/
theorem C7_sentinel_fields_witness :
    ∃ r, parse_pdf_with_regex "hello" = .ok r ∧
      r.lookup "vacancies" = some "Not specified" := by
  obtain ⟨r, v, hr, _, _, himp⟩ :=
    C7_sentinel_fields "hello" "vacancies" vacancies_patterns (by simp [patternTable])
  exact ⟨r, hr, himp (by decide)⟩

/-- C8: `extract_field` tries the patterns in order (under
case-insensitive matching where the ANY class also covers line breaks,
built into the matcher), returns the first successful match's capture
cleaned by whitespace collapsing and trimming, returns nothing when no
pattern matches, and on the concrete text "Grand Total: 1234" the
vacancies pattern list extracts "1234". -/
theorem C8_extract_field_semantics :
    (∀ text : List Char, extract_field text [] = .ok none) ∧
    (∀ (text : List Char) (p : Re) (rest : List Re) (g : List Char),
      reSearch p text = some (some g) →
        extract_field text (p :: rest) = .ok (some (fieldClean g))) ∧
    (∀ (text : List Char) (p : Re) (rest : List Re),
      reSearch p text = none →
        extract_field text (p :: rest) = extract_field text rest) ∧
    (∀ (text : List Char) (pats : List Re),
      (∀ p ∈ pats, reSearch p text = none) → extract_field text pats = .ok none) ∧
    extract_field "Grand Total: 1234".data vacancies_patterns = .ok (some "1234") := by
  refine ⟨fun _ => rfl, ?_, ?_, extract_field_all_none, ?_⟩
  · intro text p rest g h
    simp [extract_field, h]
  · intro text p rest h
    simp [extract_field, h]
  · rfl

/-- C8 witness: the ordered-trial equations applied at the concrete
scenario input (first pattern fails, second matches and captures). -/
theorem C8_extract_field_semantics_witness :
    extract_field "Grand Total: 1234".data (pat_vacancies_1 :: [pat_vacancies_2]) =
      .ok (some (fieldClean "1234".data)) := by
  have h := C8_extract_field_semantics
  rw [h.2.2.1 _ _ _ (by decide)]
  exact h.2.1 _ _ _ "1234".data (by decide)

/-- C2 counterexample: on the raw text "CEN NO. 1/2 ( \n )" the third
job-title pattern matches with a whitespace-only capture, which cleans
to the empty string — the produced record binds job_title to "", not to
a non-empty string and not to the sentinel. -/
theorem C2_counterexample :
    (parse_pdf_with_regex "CEN NO. 1/2 ( \n )").toOption.bind (List.lookup "job_title") =
      some "" ∧ ("" : String) ≠ "Not specified" ∧ ("" : String).length = 0 :=
  ⟨rfl, by decide, rfl⟩

/-- C2 (amended): every regex-strategy record binds each of the seven
schema fields to a string (possibly empty, sentinel when unmatched); a
generative-strategy record binds every key of the model payload plus
raw_text to a string, while fields absent from the payload stay absent. -/
theorem C2_fields_present :
    (∀ (text : String) (r : List (String × String)), parse_pdf_with_regex text = .ok r →
      ∀ f ∈ sevenFields, ∃ v : String, r.lookup f = some v) ∧
    (∀ (key raw : String) (p : List (String × JValue)) (res : LlmResult),
      key ≠ "" → parse_pdf_with_llm key (.payload p) raw = .ok res →
      (∀ (k : String) (vj : JValue), (k, vj) ∈ p → ∃ s : String, res.record.lookup k = some s) ∧
      ∃ s : String, res.record.lookup "raw_text" = some s) := by
  constructor
  · intro text r hr f hf
    obtain ⟨jt, dep, vac, eli, sal, ddl, url, _, _, _, _, _, _, _, hp⟩ :=
      parse_regex_shape text
    rw [hr] at hp
    injection hp with hp
    subst hp
    simp only [sevenFields, List.mem_cons, List.not_mem_nil, or_false] at hf
    rcases hf with rfl | rfl | rfl | rfl | rfl | rfl | rfl
    · exact ⟨finalizeField jt, by simp [List.lookup]⟩
    · exact ⟨finalizeField dep, by simp [List.lookup]⟩
    · exact ⟨finalizeField vac, by simp [List.lookup]⟩
    · exact ⟨finalizeField eli, by simp [List.lookup]⟩
    · exact ⟨finalizeField sal, by simp [List.lookup]⟩
    · exact ⟨finalizeField ddl, by simp [List.lookup]⟩
    · exact ⟨finalizeField url, by simp [List.lookup]⟩
  · intro key raw p res hkey hres
    simp only [parse_pdf_with_llm, if_neg hkey, Except.ok.injEq] at hres
    subst hres
    refine ⟨?_, _, lookup_dictSet_self _ _ _⟩
    intro k vj hk
    by_cases hraw : k = "raw_text"
    · subst hraw
      exact ⟨_, lookup_dictSet_self _ _ _⟩
    · obtain ⟨w, hw⟩ := exists_lookup_of_mem hk
      refine ⟨sanitizeValue w, ?_⟩
      rw [lookup_dictSet_ne _ _ _ _ hraw, lookup_sanitize, hw]
      rfl

/-- C2 witness: a concrete generative payload with one field, showing
the payload key and raw_text both present in the record. -/
theorem C2_fields_present_witness :
    ∃ res : LlmResult,
      parse_pdf_with_llm "k" (.payload [("job_title", .str "X")]) "" = .ok res ∧
      (∃ s, res.record.lookup "job_title" = some s) ∧
      (∃ s, res.record.lookup "raw_text" = some s) := by
  refine ⟨⟨[("job_title", "X"), ("raw_text", "")], 1, 0⟩, rfl, ?_, ?_⟩
  · exact (C2_fields_present.2 "k" "" [("job_title", .str "X")] _ (by decide) rfl).1
      "job_title" (.str "X") (by simp)
  · exact (C2_fields_present.2 "k" "" [("job_title", .str "X")] _ (by decide) rfl).2

/-- C9 counterexample: on the generative tier with whitespace-only input
" ", raw_text is the raw one-character text, not the empty string the
claim requires for every whitespace-only input. -/
theorem C9_counterexample :
    (∀ c ∈ (" " : String).data, isSpace c = true) ∧
    (parse_pdf_with_llm "k" (.payload []) " ").map
      (fun res => res.record.lookup "raw_text") = .ok (some " ") ∧
    (" " : String) ≠ "" :=
  ⟨by decide, rfl, by decide⟩

/-- C9 (amended): raw_text is always the first 1000 characters of the
source text (the cleaned text on the fallback tier, the raw text on the
generative tier), hence at most 1000 characters long, the full text when
it is shorter, and empty for whitespace-only input on the fallback tier
(the generative tier keeps the raw whitespace). -/
theorem C9_raw_text_truncation :
    (∀ (text : String) (r : List (String × String)), parse_pdf_with_regex text = .ok r →
      r.lookup "raw_text" = some ((cleanText text.data).take 1000).asString ∧
      (((cleanText text.data).take 1000).asString).length ≤ 1000 ∧
      (∃ rest, cleanText text.data = (cleanText text.data).take 1000 ++ rest) ∧
      ((cleanText text.data).length ≤ 1000 →
        r.lookup "raw_text" = some (cleanText text.data).asString) ∧
      ((∀ c ∈ text.data, isSpace c = true) → r.lookup "raw_text" = some "")) ∧
    (∀ (key raw : String) (p : List (String × JValue)) (res : LlmResult),
      key ≠ "" → parse_pdf_with_llm key (.payload p) raw = .ok res →
      res.record.lookup "raw_text" = some (raw.data.take 1000).asString ∧
      ((raw.data.take 1000).asString).length ≤ 1000 ∧
      (∃ rest, raw.data = raw.data.take 1000 ++ rest) ∧
      (raw.data.length ≤ 1000 →
        res.record.lookup "raw_text" = some raw.data.asString)) := by
  constructor
  · intro text r hr
    obtain ⟨jt, dep, vac, eli, sal, ddl, url, _, _, _, _, _, _, _, hp⟩ :=
      parse_regex_shape text
    rw [hr] at hp
    injection hp with hp
    subst hp
    refine ⟨by simp [List.lookup], ?_, ⟨_, (List.take_append_drop 1000 _).symm⟩, ?_, ?_⟩
    · show ((cleanText text.data).take 1000).length ≤ 1000
      rw [List.length_take]
      exact min_le_left _ _
    · intro hlen
      rw [List.take_of_length_le hlen]
      simp [List.lookup]
    · intro hws
      rw [cleanText_all_space hws]
      simp [List.lookup]
      rfl
  · intro key raw p res hkey hres
    simp only [parse_pdf_with_llm, if_neg hkey, Except.ok.injEq] at hres
    subst hres
    refine ⟨lookup_dictSet_self _ _ _, ?_, ⟨_, (List.take_append_drop 1000 _).symm⟩, ?_⟩
    · show (raw.data.take 1000).length ≤ 1000
      rw [List.length_take]
      exact min_le_left _ _
    · intro hlen
      rw [List.take_of_length_le hlen]
      exact lookup_dictSet_self _ _ _

/-- C9 witness: the regex tier on the concrete whitespace-only input
"  \n " yields raw_text equal to the empty string. -/
theorem C9_raw_text_truncation_witness :
    ∃ r, parse_pdf_with_regex "  \n " = .ok r ∧ r.lookup "raw_text" = some "" := by
  obtain ⟨r, hr⟩ : ∃ r, parse_pdf_with_regex "  \n " = .ok r := ⟨_, rfl⟩
  obtain ⟨_, _, _, _, hws⟩ := C9_raw_text_truncation.1 "  \n " r hr
  exact ⟨r, hr, hws (by decide)⟩

/-- C1 counterexample: for the payload `{"salary": 500}` the sanitized
record contains no job_title binding at all — a field absent from the
payload is absent from the record, not replaced by the sentinel. -/
theorem C1_counterexample :
    (parse_pdf_with_llm "k" (.payload [("salary", .num 500)]) "t").map
      (fun res => res.record.lookup "job_title") = .ok none ∧
    (none : Option String) ≠ some "Not specified" :=
  ⟨rfl, by decide⟩

/-- C1 (amended): every field present in the payload is sanitized to the
string coercion of its value, with null replaced by the sentinel (fields
absent from the payload stay absent); for the payload
`{"job_title": null, "salary": 500}` the record has
job_title = "Not specified" and salary = "500". -/
theorem C1_sanitize_contract :
    (∀ (p : List (String × JValue)) (k : String) (v : JValue),
      (k, v) ∈ p → (k, sanitizeValue v) ∈ sanitize p) ∧
    (∀ (p : List (String × JValue)) (k : String),
      (sanitize p).lookup k = (p.lookup k).map sanitizeValue) ∧
    sanitizeValue .null = "Not specified" ∧
    (∀ n : Int, sanitizeValue (.num n) = toString n) ∧
    (∀ s : String, sanitizeValue (.str s) = s) ∧
    (parse_pdf_with_llm "k" (.payload [("job_title", .null), ("salary", .num 500)]) "txt").map
      (fun res => (res.record.lookup "job_title", res.record.lookup "salary")) =
      .ok (some "Not specified", some "500") := by
  refine ⟨?_, lookup_sanitize, rfl, fun _ => rfl, fun _ => rfl, rfl⟩
  intro p k v h
  exact List.mem_map_of_mem (fun kv => (kv.1, sanitizeValue kv.2)) h

/-- C1 witness: sanitization applied to the one-field payload
`{"salary": 500}`. -/
theorem C1_sanitize_contract_witness :
    ("salary", sanitizeValue (.num 500)) ∈ sanitize [("salary", JValue.num 500)] :=
  C1_sanitize_contract.1 _ "salary" (.num 500) (by simp)

/-- C3 counterexample: with the credential environment variable absent,
`os.getenv` substitutes the baked-in default key, which is non-empty, so
the credential check does not fire and a model transport call is
performed (one attempt, not zero). -/
theorem C3_counterexample :
    getenv none = default_api_key ∧ getenv none ≠ "" ∧
    (parse_pdf_with_llm (getenv none) .exn "x").map (fun r => r.attempts) = .ok 1 ∧
    (1 : Nat) ≠ 0 :=
  ⟨rfl, by decide, rfl, by decide⟩

/-- C3 (amended): the parser skips directly to the regex fallback, with
zero model attempts and zero backoff wait and as a handled `.ok` state,
exactly when the resolved credential is the empty string (environment
variable set to ""); an absent environment variable instead resolves to
the baked-in non-empty default key. -/
theorem C3_credential_check :
    (∀ (outcome : ModelOutcome) (text : String),
      ∃ rec, parse_pdf_with_regex text = .ok rec ∧
        parse_pdf_with_llm (getenv (some "")) outcome text = .ok ⟨rec, 0, 0⟩) ∧
    getenv none = default_api_key ∧ default_api_key ≠ "" := by
  refine ⟨?_, rfl, by decide⟩
  intro outcome text
  obtain ⟨jt, dep, vac, eli, sal, ddl, url, _, _, _, _, _, _, _, hp⟩ := parse_regex_shape text
  exact ⟨_, hp, by simp [parse_pdf_with_llm, getenv, hp, Except.map]⟩

/-- C4 counterexample: with a failing transport the code performs
exactly one model attempt and consumes no backoff wait, not one attempt
per slot of the (spec-modelled) five-slot exponential schedule. -/
theorem C4_counterexample :
    (parse_pdf_with_llm "k" .exn "doc").map (fun r => (r.attempts, r.sleep)) = .ok (1, 0) ∧
    backoff_schedule_spec.length = 5 ∧ (1 : Nat) ≠ 5 ∧ (0 : Nat) ≠ 1 + 2 + 4 + 8 + 16 :=
  ⟨rfl, rfl, by decide, by decide⟩

/-- C4 (amended): if the model transport raises, the parse terminates
and returns exactly the record the regex fallback produces on the same
text, after exactly one model attempt and zero backoff wait. -/
theorem C4_transient_terminates (key text : String) (h : key ≠ "") :
    ∃ rec, parse_pdf_with_regex text = .ok rec ∧
      parse_pdf_with_llm key .exn text = .ok ⟨rec, 1, 0⟩ := by
  obtain ⟨jt, dep, vac, eli, sal, ddl, url, _, _, _, _, _, _, _, hp⟩ := parse_regex_shape text
  exact ⟨_, hp, by simp [parse_pdf_with_llm, h, hp, Except.map]⟩

/-- C4 witness: the amended claim at the concrete key "k" and text
"doc". -/
theorem C4_transient_terminates_witness :
    ∃ rec, parse_pdf_with_regex "doc" = .ok rec ∧
      parse_pdf_with_llm "k" .exn "doc" = .ok ⟨rec, 1, 0⟩ :=
  C4_transient_terminates "k" "doc" (by decide)

/-- C5: a safety-blocked response (no usable content) on the first call
makes the parse return the regex fallback record immediately: one model
attempt in total, zero backoff wait. -/
theorem C5_safety_block_short_circuit (key text : String) (h : key ≠ "") :
    ∃ rec, parse_pdf_with_regex text = .ok rec ∧
      parse_pdf_with_llm key .noContent text = .ok ⟨rec, 1, 0⟩ := by
  obtain ⟨jt, dep, vac, eli, sal, ddl, url, _, _, _, _, _, _, _, hp⟩ := parse_regex_shape text
  exact ⟨_, hp, by simp [parse_pdf_with_llm, h, hp, Except.map]⟩

/-- C5 witness: the safety-block short-circuit at the concrete key "k"
and text "blocked". -/
theorem C5_safety_block_short_circuit_witness :
    ∃ rec, parse_pdf_with_regex "blocked" = .ok rec ∧
      parse_pdf_with_llm "k" .noContent "blocked" = .ok ⟨rec, 1, 0⟩ :=
  C5_safety_block_short_circuit "k" "blocked" (by decide)

/-- C10: once text extraction has succeeded, every failure outcome of
the model tier — transport exception, response-decoding exception, or
missing usable content — is caught and the parse returns exactly the
record `parse_pdf_with_regex` produces for the same document. -/
theorem C10_catch_all_fallback (key text : String) (outcome : ModelOutcome)
    (h : key ≠ "") (hfail : outcome = .exn ∨ outcome = .noContent) :
    ∃ rec, parse_pdf_with_regex text = .ok rec ∧
      (parse_pdf_with_llm key outcome text).map (fun r => r.record) = .ok rec := by
  obtain ⟨jt, dep, vac, eli, sal, ddl, url, _, _, _, _, _, _, _, hp⟩ := parse_regex_shape text
  rcases hfail with rfl | rfl
  · exact ⟨_, hp, by simp [parse_pdf_with_llm, h, hp, Except.map]⟩
  · exact ⟨_, hp, by simp [parse_pdf_with_llm, h, hp, Except.map]⟩

/-- C10 witness: the catch-all fallback at the concrete key "k", outcome
`exn` and text "x y". -/
theorem C10_catch_all_fallback_witness :
    ∃ rec, parse_pdf_with_regex "x y" = .ok rec ∧
      (parse_pdf_with_llm "k" .exn "x y").map (fun r => r.record) = .ok rec :=
  C10_catch_all_fallback "k" "x y" .exn (by decide) (Or.inl rfl)

end PdfJobParserModel
